import Mathlib

/-!
Verification of the TFS client (`rbtools/clients/tfs.py`): revision-spec
parsing, symbolic-revision resolution, and working-copy diff synthesis.

The embedding models the Python module shallowly:
* external effects (the `tf` command line tool, the filesystem, the GNU
  `diff` invocation) are abstracted as functions supplied in a `TFSEnv`
  record, and every externally visible action of the synthesizer is logged
  as an `Event`;
* Python byte strings and unicode strings are both modelled as `String`
  (the module round-trips everything through UTF-8);
* Python exceptions become `Except TFSError`.
-/

/-- Errors raised by the client.  `dieError` models `rbtools.utils.process.die`
(which terminates the process), `keyError` models a Python `KeyError` on a
missing XML attribute, and `externalToolFailure` models `execute` aborting on
a non-tolerated exit status of an external tool. -/
inductive TFSError where
  | invalidRevisionSpec (message : String)
  | tooManyRevisions
  | keyError (attr : String)
  | externalToolFailure
  | dieError (message : String)
deriving DecidableEq, Repr

/-- `TFSClient.REVISION_WORKING_COPY`. -/
def REVISION_WORKING_COPY : String := "--rbtools-working-copy"

/-- A value stored in the `base`/`tip` slots of a parsed revision spec:
either a numeric changeset id or the working-copy sentinel string. -/
inductive Revision where
  | changeset (id : Int)
  | workingCopy
deriving DecidableEq, Repr

/-- Python `str()` applied to a revision-spec entry (`diff` stringifies
`base` and `tip` before comparing with the sentinel). -/
def revisionStr : Revision → String
  | .changeset n => toString n
  | .workingCopy => REVISION_WORKING_COPY

/-- The dictionary returned by `parse_revision_spec`. -/
structure RevisionSpec where
  base : Revision
  tip : Revision
deriving DecidableEq, Repr

/-- Python `str.split(sep)` for the two-character separator `", "`,
on character lists.  Leftmost separator occurrences are split greedily,
exactly as CPython does. -/
def splitCommaSpaceChars : List Char → List (List Char)
  | [] => [[]]
  | ',' :: ' ' :: rest => [] :: splitCommaSpaceChars rest
  | c :: rest =>
    match splitCommaSpaceChars rest with
    | [] => [[c]]
    | g :: gs => (c :: g) :: gs

/-- `change_type.split(', ')` from line 179 of the source. -/
def splitCommaSpace (s : String) : List String :=
  (splitCommaSpaceChars s.data).map (fun l => String.mk l)

/-- Python `str.split('~')` on character lists. -/
def splitTildeChars : List Char → List (List Char)
  | [] => [[]]
  | '~' :: rest => [] :: splitTildeChars rest
  | c :: rest =>
    match splitTildeChars rest with
    | [] => [[c]]
    | g :: gs => (c :: g) :: gs

/-- `revisions[0].split('~')` from line 115 of the source. -/
def splitTildeStr (s : String) : List String :=
  (splitTildeChars s.data).map (fun l => String.mk l)

/-- One `<changeset>` element of the XML history document; `id` is the
`id` attribute when present. -/
structure ChangesetElem where
  id : Option String
deriving DecidableEq, Repr

/-- The outcome of running `tf history` and feeding the output to
`ET.fromstring`: either the document does not parse at all, or it yields a
(possibly empty) list of `<changeset>` children. -/
inductive HistoryResponse where
  | unparsable
  | parsed (changesets : List ChangesetElem)
deriving DecidableEq, Repr

/-- Python `int(s)`: strip surrounding whitespace, an optional sign, then a
non-empty digit string; `none` models `ValueError`. -/
def isSpaceChar (c : Char) : Bool :=
  c == ' ' || c == '\t' || c == '\n' || c == '\r'

def isDigitChar (c : Char) : Bool :=
  '0' ≤ c && c ≤ '9'

def natOfDigits (cs : List Char) : Option Nat :=
  match cs with
  | [] => none
  | _ =>
    if cs.all isDigitChar then
      some (cs.foldl (fun a c => a * 10 + (c.toNat - 48)) 0)
    else
      none

def pyInt (s : String) : Option Int :=
  let cs := ((s.data.dropWhile isSpaceChar).reverse.dropWhile isSpaceChar).reverse
  match cs with
  | '-' :: rest => (natOfDigits rest).map (fun n => -(n : Int))
  | '+' :: rest => (natOfDigits rest).map (fun n => (n : Int))
  | rest => (natOfDigits rest).map (fun n => (n : Int))

/-- The argument list built by `_convert_symbolic_revision` (lines 372–380):
a single-result, most-recent-first history query, with the `-version`
qualifier elided when the revision is the latest-workspace sentinel `W`. -/
def historyArgs (revision path : String) : List String :=
  ["history", "-stopafter:1", "-recursive", "-format:xml"] ++
    (if revision == "W" then [] else ["-version:" ++ revision]) ++ [path]

/-- The message of the `InvalidRevisionSpecError` raised at lines 398–400. -/
def invalidSpecMessage (revision : String) : String :=
  "\"" ++ revision ++ "\" does not appear to be a valid versionspec"

/-- `TFSClient._convert_symbolic_revision` (lines 370–400).  `hq` maps the
argument list of a `tf history` invocation to its parsed response.  Every
exception thrown inside the `try` block (no parse, no `<changeset>` child,
missing `id` attribute, `int()` failure) is caught and converted into
`InvalidRevisionSpecError` naming the offending token. -/
def convert_symbolic_revision (hq : List String → HistoryResponse)
    (revision path : String) : Except TFSError Int :=
  match hq (historyArgs revision path) with
  | .unparsable => .error (.invalidRevisionSpec (invalidSpecMessage revision))
  | .parsed changesets =>
    match changesets with
    | [] => .error (.invalidRevisionSpec (invalidSpecMessage revision))
    | cs :: _ =>
      match cs.id with
      | none => .error (.invalidRevisionSpec (invalidSpecMessage revision))
      | some idStr =>
        match pyInt idStr with
        | none => .error (.invalidRevisionSpec (invalidSpecMessage revision))
        | some n => .ok n

/-- The token-list preprocessing at lines 112–116: a single token containing
`~` is split into its `~`-separated parts, overriding the token count. -/
def effectiveRevisions (revisions : List String) : List String :=
  match revisions with
  | [r] => if r.data.contains '~' then splitTildeStr r else [r]
  | rs => rs

/-- `TFSClient.parse_revision_spec` (lines 85–144).  `resolve` abstracts
`self._convert_symbolic_revision` with its default path; the second
component of the result records, in order, the tokens passed to the
resolver, so that theorems can speak about which resolution calls were
made. -/
def parse_revision_spec (resolve : String → Except TFSError Int)
    (revisions : List String) :
    Except TFSError RevisionSpec × List String :=
  match effectiveRevisions revisions with
  | [] =>
    match resolve "W" with
    | .ok c => (.ok ⟨.changeset c, .workingCopy⟩, ["W"])
    | .error e => (.error e, ["W"])
  | [r] =>
    match resolve r with
    | .ok c => (.ok ⟨.changeset (c - 1), .changeset c⟩, [r])
    | .error e => (.error e, [r])
  | [r1, r2] =>
    match resolve r1 with
    | .error e => (.error e, [r1])
    | .ok c1 =>
      match resolve r2 with
      | .error e => (.error e, [r1, r2])
      | .ok c2 => (.ok ⟨.changeset c1, .changeset c2⟩, [r1, r2])
  | _ => (.error .tooManyRevisions, [])

/-- One `<pending-change>` element of the XML status document, with the
attributes the synthesizer reads.  `fileType` models `attrib.get('file-type')`
(absent for folders); `sourceItem` is the `source-item` attribute, whose
absence makes `attrib['source-item']` raise `KeyError`. -/
structure PendingChange where
  changeType : String
  serverItem : String
  localItem : String
  version : String
  fileType : Option String
  sourceItem : Option String
deriving DecidableEq, Repr

/-- The parsed `tf status -format:xml` document. -/
structure StatusDoc where
  pendingChanges : List PendingChange
  candidateChanges : Nat
deriving DecidableEq, Repr

/-- Externally visible actions performed while synthesizing a diff, in
program order: `tf` invocations, local filesystem reads, temporary-file
creation/deletion, and invocations of the external GNU `diff` tool. -/
inductive Event where
  | statusQuery
  | historyQuery (args : List String)
  | printQuery (version path : String)
  | readLocal (path : String)
  | tmpCreate
  | tmpDelete
  | extDiff (oldLabel newLabel : String)
deriving DecidableEq, Repr

/-- The external world of the client: the parsed status document, the local
filesystem (`isfile` / `readFile`), the `tf print` and `tf history` query
results, the exclude-pattern matcher (`filename_match_any_patterns`), and
the external diff tool.  `diffTool oldLabel newLabel oldData newData`
returns the produced fragment, or an error when the tool exits with a
status other than 0 or the tolerated 1. -/
structure TFSEnv where
  statusDoc : StatusDoc
  isfile : String → Bool
  readFile : String → String
  tfPrint : String → String → String
  historyQuery : List String → HistoryResponse
  matchAny : String → List String → Bool
  diffTool : String → String → String → String → Except Unit String

/-- `pending_change.attrib['source-item']`: `KeyError` when absent. -/
def sourceItemAttr (pc : PendingChange) : Except TFSError String :=
  match pc.sourceItem with
  | some s => .ok s
  | none => .error (.keyError "source-item")

/-- The `if copied:` block at lines 205–210: for a copy (`branch` action),
the old filename becomes the copy source and the old version is re-resolved
as the latest workspace revision of the source path itself.  Returns the
resulting `(old_filename, old_version)` pair together with the history
queries issued. -/
def copiedAdjust (env : TFSEnv) (copied : Bool) (old_filename0 : String)
    (pc : PendingChange) :
    Except TFSError (String × String) × List Event :=
  if copied then
    match sourceItemAttr pc with
    | .error e => (.error e, [])
    | .ok src =>
      match convert_symbolic_revision env.historyQuery "W" src with
      | .ok w => (.ok (src, toString w), [Event.historyQuery (historyArgs "W" src)])
      | .error e => (.error e, [Event.historyQuery (historyArgs "W" src)])
  else
    (.ok (old_filename0, pc.version), [])

/-- Old/new content reconstruction, lines 184–233. -/
structure Recon where
  old_data : String
  new_data : String
  new_version : String
  events : List Event
deriving DecidableEq, Repr

/-- The `add`/`delete`/`edit` chain at lines 212–233: old content is empty
for adds and fetched with `tf print` otherwise; new content is empty for
deletes and read from the local file for adds and edits — except that the
read is skipped for *adds* of binary files (the guard at line 215). -/
def reconstructContents (env : TFSEnv) (action : List String)
    (file_type local_filename old_version old_filename : String) : Recon :=
  if action.contains "add" then
    if file_type != "binary" then
      ⟨"", env.readFile local_filename, "(pending)", [Event.readLocal local_filename]⟩
    else
      ⟨"", "", "(pending)", []⟩
  else if action.contains "delete" then
    ⟨env.tfPrint old_version old_filename, "", "(deleted)",
     [Event.printQuery old_version old_filename]⟩
  else if action.contains "edit" then
    ⟨env.tfPrint old_version old_filename, env.readFile local_filename, "(pending)",
     [Event.printQuery old_version old_filename, Event.readLocal local_filename]⟩
  else
    ⟨"", "", "(pending)", []⟩

/-- The per-record body of the `for pending_change in ...` loop of
`TFSClient._diff_working_copy` (lines 178–274).  Returns the fragment
pieces appended to `diff` for this record and the log of external actions;
an `error` result models an exception aborting the whole diff (a missing
`source-item` attribute, a failed resolution of a copy source, or a
non-tolerated exit status of the external diff tool, which `execute`
turns into process termination *before* the `os.unlink` calls at lines
273–274 run). -/
def processPendingChange (env : TFSEnv) (excludePatterns : List String)
    (pc : PendingChange) : Except TFSError (List String) × List Event :=
  let action := splitCommaSpace pc.changeType
  let new_filename := pc.serverItem
  let local_filename := pc.localItem
  let file_type := pc.fileType.getD ""
  let copied := action.contains "branch"
  if file_type == "" || (!env.isfile local_filename && !action.contains "delete") then
    (.ok [], [])
  else if !excludePatterns.isEmpty && env.matchAny local_filename excludePatterns then
    (.ok [], [])
  else
    match (if action.contains "rename" then sourceItemAttr pc else .ok new_filename) with
    | .error e => (.error e, [])
    | .ok old_filename0 =>
      match copiedAdjust env copied old_filename0 pc with
      | (.error e, evs0) => (.error e, evs0)
      | (.ok (old_filename, old_version), evs0) =>
        let r := reconstructContents env action file_type local_filename
                   old_version old_filename
        let old_filename1 := if action.contains "add" then "/dev/null" else old_filename
        let old_label := old_filename1 ++ "\t" ++ old_version
        let new_label := new_filename ++ "\t" ++ r.new_version
        let pre := if copied then ["Copied from: " ++ old_filename1 ++ "\n"] else []
        if file_type == "binary" then
          let marker_old := if action.contains "add" then new_filename else old_filename1
          (.ok (pre ++ ["--- " ++ old_label ++ "\n",
                        "+++ " ++ new_label ++ "\n",
                        "Binary files " ++ marker_old ++ " and " ++ new_filename
                          ++ " differ\n"]),
           evs0 ++ r.events)
        else if !(old_filename1 == new_filename) && r.old_data == r.new_data then
          (.ok (pre ++ ["--- " ++ old_label ++ "\n",
                        "+++ " ++ new_label ++ "\n"]),
           evs0 ++ r.events)
        else
          let evs1 := evs0 ++ r.events ++
            [Event.tmpCreate, Event.tmpCreate, Event.extDiff old_label new_label]
          match env.diffTool old_label new_label r.old_data r.new_data with
          | .ok out => (.ok (pre ++ [out]), evs1 ++ [Event.tmpDelete, Event.tmpDelete])
          | .error _ => (.error .externalToolFailure, evs1)

/-- The whole `for` loop: process records in status-report order,
concatenating fragments, aborting on the first exception. -/
def processAll (env : TFSEnv) (excludePatterns : List String) :
    List PendingChange → Except TFSError (List String) × List Event
  | [] => (.ok [], [])
  | pc :: rest =>
    match processPendingChange env excludePatterns pc with
    | (.ok frag, evs) =>
      match processAll env excludePatterns rest with
      | (.ok frags, evs2) => (.ok (frag ++ frags), evs ++ evs2)
      | (.error e, evs2) => (.error e, evs ++ evs2)
    | (.error e, evs) => (.error e, evs)

/-- The dictionary returned by `diff` / `_diff_working_copy`. -/
structure DiffResult where
  diff : String
  parent_diff : Option String
  base_commit_id : String
deriving DecidableEq, Repr

/-- `TFSClient._diff_working_copy` (lines 168–285): run `tf status`, process
every pending-change record in report order, and join the fragments.
`parent_diff` is always `None` and `base_commit_id` the caller's base.
The `include_files` argument is accepted but never consulted. -/
def diff_working_copy (env : TFSEnv) (base : String)
    (includeFiles excludePatterns : List String) :
    Except TFSError DiffResult × List Event :=
  match processAll env excludePatterns env.statusDoc.pendingChanges with
  | (.ok frags, evs) =>
    (.ok ⟨String.join frags, none, base⟩, Event.statusQuery :: evs)
  | (.error e, evs) => (.error e, Event.statusQuery :: evs)

/-- `TFSClient._diff_committed_changes` (lines 287–352): the body starts
with `die('Posting committed changes is not yet supported for TFS.')`,
which terminates the process, so everything after it is unreachable and the
function performs no query at all. -/
def diff_committed_changes (env : TFSEnv) (base tip : String)
    (includeFiles excludePatterns : List String) :
    Except TFSError DiffResult × List Event :=
  (.error (.dieError "Posting committed changes is not yet supported for TFS."), [])

/-- `TFSClient.diff` (lines 146–166): stringify base and tip and dispatch on
whether the tip is the working-copy sentinel. -/
def tfs_diff (env : TFSEnv) (revisions : RevisionSpec)
    (includeFiles excludePatterns : List String) :
    Except TFSError DiffResult × List Event :=
  let base := revisionStr revisions.base
  let tip := revisionStr revisions.tip
  if tip == REVISION_WORKING_COPY then
    diff_working_copy env base includeFiles excludePatterns
  else
    diff_committed_changes env base tip includeFiles excludePatterns

/-! ### Helper lemmas about the event logs of the synthesis stages -/

/-- Copy-source adjustment only ever issues history queries. -/
theorem copiedAdjust_snd (env : TFSEnv) (copied : Bool) (f : String)
    (pc : PendingChange) :
    ∀ e ∈ (copiedAdjust env copied f pc).2, ∃ a, e = Event.historyQuery a := by
  intro e he
  unfold copiedAdjust at he
  cases hc : copied
  · rw [hc] at he
    simp at he
  · rw [hc] at he
    rcases hs : sourceItemAttr pc with e₁ | src
    · rw [hs] at he
      simp at he
    · rw [hs] at he
      simp at he
      rcases hr : convert_symbolic_revision env.historyQuery "W" src with e₂ | w
      · rw [hr] at he
        simp at he
        exact ⟨_, he⟩
      · rw [hr] at he
        simp at he
        exact ⟨_, he⟩

/-- Content reconstruction only ever reads the local file or runs `tf print`. -/
theorem reconstructContents_events_sub (env : TFSEnv) (action : List String)
    (file_type local_filename old_version old_filename : String) :
    ∀ e ∈ (reconstructContents env action file_type local_filename
             old_version old_filename).events,
      (∃ p, e = Event.readLocal p) ∨ (∃ v p, e = Event.printQuery v p) := by
  intro e he
  unfold reconstructContents at he
  split at he
  · split at he
    · simp at he
      exact .inl ⟨_, he⟩
    · simp at he
  · split at he
    · simp at he
      exact .inr ⟨_, _, he⟩
    · split at he
      · simp at he
        rcases he with he | he
        · exact .inr ⟨_, _, he⟩
        · exact .inl ⟨_, he⟩
      · simp at he

/-- For a binary add, content reconstruction performs no action at all
(the filesystem read is skipped by the guard at line 215). -/
theorem reconstructContents_binary_add_events (env : TFSEnv) (action : List String)
    (local_filename old_version old_filename : String)
    (hadd : action.contains "add" = true) :
    (reconstructContents env action "binary" local_filename
       old_version old_filename).events = [] := by
  unfold reconstructContents
  rw [hadd]
  simp

/-- A line is the start of a unified-diff hunk when it begins with `@@`. -/
def isHunkHeaderLine (l : String) : Bool :=
  l.data.take 2 == ['@', '@']

/-! ### Claim theorems -/

/-- Claim C1: for a single-token revision list whose token does not use the
`A~B` range syntax and resolves to changeset `c`, `parse_revision_spec`
returns exactly base `c - 1` and tip `c`, and the resolver is invoked
exactly once, on that token: the base is obtained by subtracting one from
the resolved id, not by a second resolution call. -/
theorem parse_revision_spec_single_token (resolve : String → Except TFSError Int)
    (tok : String) (c : Int)
    (htilde : tok.data.contains '~' = false)
    (hres : resolve tok = .ok c) :
    parse_revision_spec resolve [tok] =
      (.ok ⟨.changeset (c - 1), .changeset c⟩, [tok]) := by
  have hmem : ¬('~' ∈ tok.data) := by simpa using htilde
  unfold parse_revision_spec effectiveRevisions
  simp [hmem, hres]

/-- Witness for C1 at a concrete resolver and token. -/
theorem parse_revision_spec_single_token_witness :
    parse_revision_spec
        (fun t => if t == "42" then .ok 42 else .error (.invalidRevisionSpec t))
        ["42"] =
      (.ok ⟨.changeset 41, .changeset 42⟩, ["42"]) :=
  parse_revision_spec_single_token _ "42" 42 (by decide) rfl

/-- Claim C8: whenever the token list still has three or more entries after
the optional `A~B` split of a single token, `parse_revision_spec` fails
with `TooManyRevisionsError` and performs no resolution call (the logged
resolution list is empty). -/
theorem parse_revision_spec_too_many (resolve : String → Except TFSError Int)
    (revisions : List String)
    (h : 3 ≤ (effectiveRevisions revisions).length) :
    parse_revision_spec resolve revisions = (.error .tooManyRevisions, []) := by
  rcases hL : effectiveRevisions revisions with _ | ⟨a, _ | ⟨b, _ | ⟨c, rest⟩⟩⟩
  · rw [hL] at h
    simp at h
  · rw [hL] at h
    simp at h
  · rw [hL] at h
    simp at h
  · unfold parse_revision_spec
    rw [hL]

/-- Witness for C8 on a concrete three-token list. -/
theorem parse_revision_spec_too_many_witness :
    parse_revision_spec (fun _ => .ok 7) ["1", "2", "3"] =
      (.error .tooManyRevisions, []) :=
  parse_revision_spec_too_many _ ["1", "2", "3"] (by decide)

/-- Claim C4: whenever the tip of the revision spec is not the working-copy
sentinel, `diff` fails immediately with the `die` message about committed
changes being unsupported, and the event log is empty: no VCS query is
issued and no other work is performed. -/
theorem diff_committed_range_not_supported (env : TFSEnv)
    (revisions : RevisionSpec) (includeFiles excludePatterns : List String)
    (h : revisionStr revisions.tip ≠ REVISION_WORKING_COPY) :
    tfs_diff env revisions includeFiles excludePatterns =
      (.error (.dieError "Posting committed changes is not yet supported for TFS."),
       []) := by
  unfold tfs_diff diff_committed_changes
  simp [h]

/-- Sample environment with an empty status document. -/
def sampleEnvTrivial : TFSEnv :=
  ⟨⟨[], 0⟩, fun _ => false, fun _ => "", fun _ _ => "", fun _ => .parsed [],
   fun _ _ => false, fun _ _ _ _ => .ok ""⟩

/-- Witness for C4 at a concrete committed range 5..6. -/
theorem diff_committed_range_not_supported_witness :
    tfs_diff sampleEnvTrivial ⟨.changeset 5, .changeset 6⟩ [] [] =
      (.error (.dieError "Posting committed changes is not yet supported for TFS."),
       []) :=
  diff_committed_range_not_supported sampleEnvTrivial ⟨.changeset 5, .changeset 6⟩
    [] [] (by decide)

/-- Claim C7: when the history query for a token parses to no changesets or
does not parse at all, `_convert_symbolic_revision` fails with
`InvalidRevisionSpecError`, whose message embeds the offending token; no
other outcome (in particular no other exception) is possible. -/
theorem convert_symbolic_revision_invalid (hq : List String → HistoryResponse)
    (revision path : String)
    (h : hq (historyArgs revision path) = .unparsable ∨
         hq (historyArgs revision path) = .parsed []) :
    convert_symbolic_revision hq revision path =
        .error (.invalidRevisionSpec (invalidSpecMessage revision)) ∧
      invalidSpecMessage revision =
        "\"" ++ revision ++ "\" does not appear to be a valid versionspec" := by
  constructor
  · unfold convert_symbolic_revision
    rcases h with h | h <;> rw [h]
  · rfl

/-- Witness for C7 at a concrete empty history response. -/
theorem convert_symbolic_revision_invalid_witness :
    convert_symbolic_revision (fun _ => .parsed []) "bogus" "$/proj" =
        .error (.invalidRevisionSpec (invalidSpecMessage "bogus")) ∧
      invalidSpecMessage "bogus" =
        "\"" ++ "bogus" ++ "\" does not appear to be a valid versionspec" :=
  convert_symbolic_revision_invalid (fun _ => .parsed []) "bogus" "$/proj"
    (.inr rfl)

/-- Claim C9: the working-copy diff synthesizer never consults the
`include_files` argument: two runs over the same environment, base and
exclude patterns that differ only in `include_files` return identical
results (diff, parent diff, base commit id) and identical event logs. -/
theorem diff_working_copy_ignores_include_files (env : TFSEnv) (base : String)
    (includeFiles1 includeFiles2 excludePatterns : List String) :
    diff_working_copy env base includeFiles1 excludePatterns =
      diff_working_copy env base includeFiles2 excludePatterns := rfl

/-- Claim C5: for every binary pending-change record that emits a fragment,
whatever its action set and regardless of content, the fragment is the
from/to headers followed by a `Binary files ... differ` marker naming the
new server path (preceded, for copies only, by the `Copied from:` line),
and it contains no hunk line: no line of it starts with `@@`. -/
theorem binary_record_fragment (env : TFSEnv) (excludePatterns : List String)
    (pc : PendingChange) (frag : List String)
    (hft : pc.fileType = some "binary")
    (hok : (processPendingChange env excludePatterns pc).1 = .ok frag)
    (hne : frag ≠ []) :
    (∃ pre oldLabel newLabel m,
      frag = pre ++ ["--- " ++ oldLabel ++ "\n", "+++ " ++ newLabel ++ "\n",
                     "Binary files " ++ m ++ " and " ++ pc.serverItem ++ " differ\n"] ∧
      (pre = [] ∨ ∃ s, pre = ["Copied from: " ++ s ++ "\n"])) ∧
    frag.all (fun l => !(isHunkHeaderLine l)) = true := by
  unfold processPendingChange at hok
  rw [hft] at hok
  simp only [Option.getD_some,
    show (("binary" : String) == "") = false from rfl,
    show (("binary" : String) == "binary") = true from rfl,
    Bool.false_or, eq_self_iff_true, if_true] at hok
  split at hok
  · simp at hok
    exact absurd hok hne
  · split at hok
    · simp at hok
      exact absurd hok hne
    · split at hok
      · simp at hok
      · split at hok
        · simp at hok
        · simp only [Except.ok.injEq] at hok
          cases hcop : (splitCommaSpace pc.changeType).contains "branch" with
          | false =>
            rw [hcop] at hok
            simp only [Bool.false_eq_true, if_false, List.nil_append] at hok
            subst hok
            exact ⟨⟨[], _, _, _, (List.nil_append _).symm, .inl rfl⟩, rfl⟩
          | true =>
            rw [hcop] at hok
            simp only [if_true] at hok
            subst hok
            exact ⟨⟨_, _, _, _, rfl, .inr ⟨_, rfl⟩⟩, rfl⟩

/-- Binary delete record used as a concrete witness input. -/
def samplePCBinaryDelete : PendingChange :=
  ⟨"delete", "$/p/gone.bin", "/ws/gone.bin", "9", some "binary", none⟩

def sampleEnvBinaryDelete : TFSEnv :=
  ⟨⟨[samplePCBinaryDelete], 0⟩, fun _ => false, fun _ => "", fun _ _ => "OLD",
   fun _ => .parsed [], fun _ _ => false, fun _ _ _ _ => .ok ""⟩

/-- Witness for C5 at a concrete binary delete record. -/
theorem binary_record_fragment_witness :
    (∃ pre oldLabel newLabel m,
      ["--- $/p/gone.bin\t9\n", "+++ $/p/gone.bin\t(deleted)\n",
       "Binary files $/p/gone.bin and $/p/gone.bin differ\n"] =
        pre ++ ["--- " ++ oldLabel ++ "\n", "+++ " ++ newLabel ++ "\n",
                "Binary files " ++ m ++ " and " ++ samplePCBinaryDelete.serverItem
                  ++ " differ\n"] ∧
      (pre = [] ∨ ∃ s, pre = ["Copied from: " ++ s ++ "\n"])) ∧
    (["--- $/p/gone.bin\t9\n", "+++ $/p/gone.bin\t(deleted)\n",
      "Binary files $/p/gone.bin and $/p/gone.bin differ\n"]).all
        (fun l => !(isHunkHeaderLine l)) = true :=
  binary_record_fragment sampleEnvBinaryDelete [] samplePCBinaryDelete
    ["--- $/p/gone.bin\t9\n", "+++ $/p/gone.bin\t(deleted)\n",
     "Binary files $/p/gone.bin and $/p/gone.bin differ\n"]
    rfl rfl (by decide)

/-- Claim C10: for a binary record whose action includes `add`, the emitted
fragment's `---` header names `/dev/null` together with the record's old
version, while the `Binary files X and Y differ` marker names the new
server path for both `X` and `Y` (the reassignment at lines 242–243 runs
after the labels were built). -/
theorem binary_add_header_devnull (env : TFSEnv) (excludePatterns : List String)
    (pc : PendingChange) (frag : List String)
    (hft : pc.fileType = some "binary")
    (hadd : (splitCommaSpace pc.changeType).contains "add" = true)
    (hok : (processPendingChange env excludePatterns pc).1 = .ok frag)
    (hne : frag ≠ []) :
    ∃ pre ver,
      frag = pre ++ ["--- " ++ ("/dev/null" ++ "\t" ++ ver) ++ "\n",
                     "+++ " ++ (pc.serverItem ++ "\t" ++ "(pending)") ++ "\n",
                     "Binary files " ++ pc.serverItem ++ " and " ++ pc.serverItem
                       ++ " differ\n"] ∧
      ((splitCommaSpace pc.changeType).contains "branch" = false →
        pre = [] ∧ ver = pc.version) := by
  unfold processPendingChange at hok
  rw [hft] at hok
  simp only [Option.getD_some,
    show (("binary" : String) == "") = false from rfl,
    show (("binary" : String) == "binary") = true from rfl,
    Bool.false_or, eq_self_iff_true, if_true] at hok
  split at hok
  · simp at hok
    exact absurd hok hne
  · split at hok
    · simp at hok
      exact absurd hok hne
    · split at hok
      · simp at hok
      · cases hcop : (splitCommaSpace pc.changeType).contains "branch" with
        | false =>
          simp only [copiedAdjust, hcop, Bool.false_eq_true, if_false] at hok
          unfold reconstructContents at hok
          simp only [hadd, eq_self_iff_true, if_true,
            show (("binary" : String) != "binary") = false from rfl,
            Bool.false_eq_true, if_false, Except.ok.injEq, List.nil_append] at hok
          subst hok
          exact ⟨[], pc.version, by simp, fun _ => ⟨rfl, rfl⟩⟩
        | true =>
          simp only [copiedAdjust, hcop, eq_self_iff_true, if_true,
            sourceItemAttr] at hok
          rcases hs : pc.sourceItem with _ | src
          · rw [hs] at hok
            simp at hok
          · rw [hs] at hok
            simp only [] at hok
            rcases hr : convert_symbolic_revision env.historyQuery "W" src with e | w
            · rw [hr] at hok
              simp at hok
            · rw [hr] at hok
              unfold reconstructContents at hok
              simp only [hadd, eq_self_iff_true, if_true,
                show (("binary" : String) != "binary") = false from rfl,
                Bool.false_eq_true, if_false, Except.ok.injEq] at hok
              subst hok
              exact ⟨["Copied from: " ++ "/dev/null" ++ "\n"], toString w, rfl,
                fun hc => Bool.noConfusion hc⟩

/-- Binary add record and environment used as concrete witness inputs. -/
def samplePCBinaryAdd : PendingChange :=
  ⟨"add", "$/p/new.bin", "/ws/new.bin", "0", some "binary", none⟩

def sampleEnvBinaryAdd : TFSEnv :=
  ⟨⟨[samplePCBinaryAdd], 0⟩, fun _ => true, fun _ => "BYTES", fun _ _ => "",
   fun _ => .parsed [], fun _ _ => false, fun _ _ _ _ => .ok ""⟩

/-- Witness for C10 at a concrete binary add record. -/
theorem binary_add_header_devnull_witness :
    ∃ pre ver,
      ["--- /dev/null\t0\n", "+++ $/p/new.bin\t(pending)\n",
       "Binary files $/p/new.bin and $/p/new.bin differ\n"] =
        pre ++ ["--- " ++ ("/dev/null" ++ "\t" ++ ver) ++ "\n",
                "+++ " ++ (samplePCBinaryAdd.serverItem ++ "\t" ++ "(pending)") ++ "\n",
                "Binary files " ++ samplePCBinaryAdd.serverItem ++ " and "
                  ++ samplePCBinaryAdd.serverItem ++ " differ\n"] ∧
      ((splitCommaSpace samplePCBinaryAdd.changeType).contains "branch" = false →
        pre = [] ∧ ver = samplePCBinaryAdd.version) :=
  binary_add_header_devnull sampleEnvBinaryAdd [] samplePCBinaryAdd
    ["--- /dev/null\t0\n", "+++ $/p/new.bin\t(pending)\n",
     "Binary files $/p/new.bin and $/p/new.bin differ\n"]
    rfl rfl rfl (by decide)

/-- Binary edit record and environment: counterexample input for C2. -/
def samplePCBinaryEdit : PendingChange :=
  ⟨"edit", "$/proj/img.bin", "/ws/img.bin", "7", some "binary", none⟩

def sampleEnvBinaryEdit : TFSEnv :=
  ⟨⟨[samplePCBinaryEdit], 0⟩, fun _ => true, fun _ => "NEWBYTES",
   fun _ _ => "OLDBYTES", fun _ => .parsed [], fun _ _ => false,
   fun _ _ _ _ => .ok "D"⟩

/-- Counterexample to C2 as stated: for a binary *edit* record, the
synthesizer does read the local file's content from the filesystem (the
skip guard at line 215 only protects the add branch, not the edit branch
at lines 232–233). -/
theorem binary_edit_reads_local_file :
    Event.readLocal "/ws/img.bin" ∈
      (processPendingChange sampleEnvBinaryEdit [] samplePCBinaryEdit).2 := by
  decide

/-- Claim C2 (amended): for a binary record whose action includes `add`,
the synthesizer never reads the local file's content from the filesystem;
for binary edits the read does happen (see the counterexample). -/
theorem binary_add_never_reads_local (env : TFSEnv)
    (excludePatterns : List String) (pc : PendingChange)
    (hft : pc.fileType = some "binary")
    (hadd : (splitCommaSpace pc.changeType).contains "add" = true) :
    ∀ p, Event.readLocal p ∉ (processPendingChange env excludePatterns pc).2 := by
  intro p hmem
  unfold processPendingChange at hmem
  rw [hft] at hmem
  simp only [Option.getD_some,
    show (("binary" : String) == "") = false from rfl,
    show (("binary" : String) == "binary") = true from rfl,
    Bool.false_or, eq_self_iff_true, if_true] at hmem
  split at hmem
  · simp at hmem
  · split at hmem
    · simp at hmem
    · split at hmem
      · simp at hmem
      · rename_i of0 heq0
        split at hmem
        · rename_i e evs0 heq
          simp only [] at hmem
          have h2 : (copiedAdjust env ((splitCommaSpace pc.changeType).contains "branch")
              of0 pc).2 = evs0 := by rw [heq]
          rcases copiedAdjust_snd _ _ _ _ _ (h2 ▸ hmem) with ⟨a, ha⟩
          simp at ha
        · rename_i of ov evs0 heq
          rw [reconstructContents_binary_add_events env
            (splitCommaSpace pc.changeType) pc.localItem ov of hadd] at hmem
          simp only [List.append_nil] at hmem
          have h2 : (copiedAdjust env ((splitCommaSpace pc.changeType).contains "branch")
              of0 pc).2 = evs0 := by rw [heq]
          rcases copiedAdjust_snd _ _ _ _ _ (h2 ▸ hmem) with ⟨a, ha⟩
          simp at ha

/-- Witness for the amended C2 at a concrete binary add record. -/
theorem binary_add_never_reads_local_witness :
    Event.readLocal "/ws/new.bin" ∉
      (processPendingChange sampleEnvBinaryAdd [] samplePCBinaryAdd).2 :=
  binary_add_never_reads_local sampleEnvBinaryAdd [] samplePCBinaryAdd
    rfl rfl "/ws/new.bin"

/-- Copy-source adjustment contributes no occurrence of a non-history event. -/
theorem copiedAdjust_count (env : TFSEnv) (copied : Bool) (f : String)
    (pc : PendingChange) (a : Event)
    (ha : ∀ s, a ≠ Event.historyQuery s) :
    ((copiedAdjust env copied f pc).2).count a = 0 := by
  refine List.count_eq_zero.mpr (fun hmem => ?_)
  rcases copiedAdjust_snd env copied f pc a hmem with ⟨s, hs⟩
  exact ha s hs

/-- Content reconstruction contributes no occurrence of an event other than
local reads and `tf print` queries. -/
theorem reconstructContents_count (env : TFSEnv) (action : List String)
    (file_type local_filename old_version old_filename : String) (a : Event)
    (h1 : ∀ p, a ≠ Event.readLocal p) (h2 : ∀ v p, a ≠ Event.printQuery v p) :
    ((reconstructContents env action file_type local_filename old_version
        old_filename).events).count a = 0 := by
  refine List.count_eq_zero.mpr (fun hmem => ?_)
  rcases reconstructContents_events_sub env action file_type local_filename
      old_version old_filename a hmem with ⟨p, hp⟩ | ⟨v, p, hvp⟩
  · exact h1 p hp
  · exact h2 v p hvp

/-- Text edit record whose external diff invocation fails: counterexample
input for C3. -/
def samplePCEdit : PendingChange :=
  ⟨"edit", "$/p/foo.txt", "/ws/foo.txt", "5", some "text", none⟩

def sampleEnvFailDiff : TFSEnv :=
  ⟨⟨[samplePCEdit], 0⟩, fun _ => true, fun _ => "b\n", fun _ _ => "a\n",
   fun _ => .parsed [], fun _ _ => false, fun _ _ _ _ => .error ()⟩

/-- Counterexample to C3 as stated: when the external diff tool exits with a
non-tolerated status, the operation aborts (lines 262–269 raise before the
`os.unlink` calls at lines 273–274): both temporary files were created and
neither is deleted, so cleanup does not happen on every exit path. -/
theorem tmpfiles_leak_on_diff_failure :
    ((processPendingChange sampleEnvFailDiff [] samplePCEdit).2.count
        Event.tmpCreate = 2) ∧
    ((processPendingChange sampleEnvFailDiff [] samplePCEdit).2.count
        Event.tmpDelete = 0) ∧
    ((processPendingChange sampleEnvFailDiff [] samplePCEdit).1 =
        .error .externalToolFailure) := by
  refine ⟨by decide, by decide, rfl⟩

/-- Claim C3 (amended): whenever the synthesizer stages content into the two
temporary files (the event log holds two creations), both files are deleted
if the external diff invocation succeeds (or exits with the tolerated
status 1), but when the invocation fails the record processing aborts with
the failure before any deletion, and neither file is removed. -/
theorem tmpfiles_cleanup (env : TFSEnv) (excludePatterns : List String)
    (pc : PendingChange) (res : Except TFSError (List String))
    (evs : List Event)
    (h : processPendingChange env excludePatterns pc = (res, evs))
    (hstaged : evs.count Event.tmpCreate = 2) :
    ((∃ frag, res = .ok frag) → evs.count Event.tmpDelete = 2) ∧
    (res = .error .externalToolFailure → evs.count Event.tmpDelete = 0) := by
  unfold processPendingChange at h
  simp only [] at h
  split at h
  · injection h with h1 h2
    subst h2
    simp at hstaged
  · split at h
    · injection h with h1 h2
      subst h2
      simp at hstaged
    · split at h
      · injection h with h1 h2
        subst h2
        simp at hstaged
      · rename_i of0 heq0
        split at h
        · rename_i e evs0 heq
          injection h with h1 h2
          subst h2
          have h2' : (copiedAdjust env
              ((splitCommaSpace pc.changeType).contains "branch") of0 pc).2 =
              evs0 := by rw [heq]
          rw [← h2', copiedAdjust_count _ _ _ _ _ (fun s => by simp)] at hstaged
          simp at hstaged
        · rename_i of ov evs0 heq
          have h2' : (copiedAdjust env
              ((splitCommaSpace pc.changeType).contains "branch") of0 pc).2 =
              evs0 := by rw [heq]
          have hcaC : evs0.count Event.tmpCreate = 0 := by
            rw [← h2']
            exact copiedAdjust_count _ _ _ _ _ (fun s => by simp)
          have hcaD : evs0.count Event.tmpDelete = 0 := by
            rw [← h2']
            exact copiedAdjust_count _ _ _ _ _ (fun s => by simp)
          have hrcC : ((reconstructContents env (splitCommaSpace pc.changeType)
              (pc.fileType.getD "") pc.localItem ov of).events).count
              Event.tmpCreate = 0 :=
            reconstructContents_count _ _ _ _ _ _ _ (fun p => by simp)
              (fun v p => by simp)
          have hrcD : ((reconstructContents env (splitCommaSpace pc.changeType)
              (pc.fileType.getD "") pc.localItem ov of).events).count
              Event.tmpDelete = 0 :=
            reconstructContents_count _ _ _ _ _ _ _ (fun p => by simp)
              (fun v p => by simp)
          generalize (if (splitCommaSpace pc.changeType).contains "add" = true
            then "/dev/null" else of) = of1 at h
          split at h
          · injection h with h1 h2
            subst h2
            rw [List.count_append, hcaC, hrcC] at hstaged
            simp at hstaged
          · split at h
            · injection h with h1 h2
              subst h2
              rw [List.count_append, hcaC, hrcC] at hstaged
              simp at hstaged
            · split at h
              · injection h with h1 h2
                subst h1
                subst h2
                refine ⟨fun _ => ?_, fun hcontra => Except.noConfusion hcontra⟩
                rw [List.count_append, List.count_append, List.count_append,
                  hcaD, hrcD]
                rfl
              · injection h with h1 h2
                subst h1
                subst h2
                refine ⟨fun hcontra => ?_, fun _ => ?_⟩
                · rcases hcontra with ⟨frag, hfrag⟩
                  exact Except.noConfusion hfrag
                · rw [List.count_append, List.count_append, hcaD, hrcD]
                  rfl

/-- Environment whose external diff succeeds: witness input for the amended
C3 (both temporary files deleted on the success path). -/
def sampleEnvOkDiff : TFSEnv :=
  ⟨⟨[samplePCEdit], 0⟩, fun _ => true, fun _ => "b\n", fun _ _ => "a\n",
   fun _ => .parsed [], fun _ _ => false, fun _ _ _ _ => .ok "DIFFOUT"⟩

/-- Witness for the amended C3: on a successful external diff both staged
temporary files are deleted. -/
theorem tmpfiles_cleanup_witness :
    ((processPendingChange sampleEnvOkDiff [] samplePCEdit).2).count
        Event.tmpCreate = 2 ∧
    ((processPendingChange sampleEnvOkDiff [] samplePCEdit).2).count
        Event.tmpDelete = 2 :=
  ⟨by decide,
   (tmpfiles_cleanup sampleEnvOkDiff [] samplePCEdit
      (processPendingChange sampleEnvOkDiff [] samplePCEdit).1
      (processPendingChange sampleEnvOkDiff [] samplePCEdit).2
      rfl (by decide)).1 ⟨["DIFFOUT"], rfl⟩⟩

/-- When the action set has neither `add` nor `delete`, the tip label marker
is `(pending)`. -/
theorem reconstructContents_new_version_pending (env : TFSEnv)
    (action : List String) (file_type local_filename old_version old_filename : String)
    (hadd : action.contains "add" = false)
    (hdel : action.contains "delete" = false) :
    (reconstructContents env action file_type local_filename old_version
      old_filename).new_version = "(pending)" := by
  unfold reconstructContents
  rw [hadd, hdel]
  simp only [Bool.false_eq_true, if_false]
  split <;> rfl

/-- Claim C6: for a non-binary rename or copy record whose source path
differs from the new server path and whose reconstructed old and new
contents are byte-identical, the emitted fragment is exactly the `---` and
`+++` headers (preceded, for a copy, by the `Copied from:` line): no hunks
are emitted and the external diff tool is never invoked (no temporary file
is created either). -/
theorem rename_identical_headers_only (env : TFSEnv)
    (excludePatterns : List String) (pc : PendingChange) (ft src : String)
    (wv : Int)
    (hft : pc.fileType = some ft)
    (hftb : ft ≠ "binary") (hfte : ft ≠ "")
    (hsrc : pc.sourceItem = some src)
    (hrb : (splitCommaSpace pc.changeType).contains "rename" = true ∨
           (splitCommaSpace pc.changeType).contains "branch" = true)
    (hadd : (splitCommaSpace pc.changeType).contains "add" = false)
    (hdel : (splitCommaSpace pc.changeType).contains "delete" = false)
    (hfile : env.isfile pc.localItem = true)
    (hexcl : excludePatterns = [] ∨
             env.matchAny pc.localItem excludePatterns = false)
    (hW : (splitCommaSpace pc.changeType).contains "branch" = true →
      convert_symbolic_revision env.historyQuery "W" src = .ok wv)
    (hne : src ≠ pc.serverItem)
    (hdata : (reconstructContents env (splitCommaSpace pc.changeType) ft
        pc.localItem
        (if (splitCommaSpace pc.changeType).contains "branch" then toString wv
         else pc.version) src).old_data =
      (reconstructContents env (splitCommaSpace pc.changeType) ft pc.localItem
        (if (splitCommaSpace pc.changeType).contains "branch" then toString wv
         else pc.version) src).new_data) :
    ∃ evs,
      processPendingChange env excludePatterns pc =
        (.ok ((if (splitCommaSpace pc.changeType).contains "branch"
                then ["Copied from: " ++ src ++ "\n"] else []) ++
              ["--- " ++ (src ++ "\t" ++
                  (if (splitCommaSpace pc.changeType).contains "branch"
                   then toString wv else pc.version)) ++ "\n",
               "+++ " ++ (pc.serverItem ++ "\t" ++ "(pending)") ++ "\n"]),
         evs) ∧
      (∀ a b, Event.extDiff a b ∉ evs) ∧ Event.tmpCreate ∉ evs := by
  have hftne : (ft == "") = false := beq_eq_false_iff_ne.mpr hfte
  have hftnb : (ft == "binary") = false := beq_eq_false_iff_ne.mpr hftb
  have hsrcne : (src == pc.serverItem) = false := beq_eq_false_iff_ne.mpr hne
  have hpend := reconstructContents_new_version_pending env
    (splitCommaSpace pc.changeType) ft pc.localItem
    (if (splitCommaSpace pc.changeType).contains "branch" then toString wv
     else pc.version) src hadd hdel
  have hexcl2 : (!excludePatterns.isEmpty &&
      env.matchAny pc.localItem excludePatterns) = false := by
    rcases hexcl with h | h
    · subst h
      rfl
    · rw [h, Bool.and_false]
  unfold processPendingChange
  rw [hft]
  cases hcop : (splitCommaSpace pc.changeType).contains "branch" with
  | false =>
    have hren : (splitCommaSpace pc.changeType).contains "rename" = true := by
      rcases hrb with h | h
      · exact h
      · rw [hcop] at h
        exact absurd h Bool.false_ne_true
    rw [hcop] at hdata
    simp only [Bool.false_eq_true, if_false] at hdata
    have hpend := reconstructContents_new_version_pending env
      (splitCommaSpace pc.changeType) ft pc.localItem pc.version src hadd hdel
    simp only [Option.getD_some, hftne, hfile, hren, hcop, hadd, hexcl2,
      sourceItemAttr, hsrc, copiedAdjust, Bool.not_true, Bool.false_and,
      Bool.false_or, Bool.false_eq_true, if_false, eq_self_iff_true, if_true,
      hftnb, hsrcne, Bool.not_false, Bool.true_and,
      beq_iff_eq.mpr hdata, hpend, List.nil_append]
    refine ⟨_, rfl, fun a b hmem => ?_, fun hmem => ?_⟩
    · rcases reconstructContents_events_sub env (splitCommaSpace pc.changeType)
        ft pc.localItem pc.version src _ hmem with ⟨p, hp⟩ | ⟨v, p, hvp⟩
      · simp at hp
      · simp at hvp
    · rcases reconstructContents_events_sub env (splitCommaSpace pc.changeType)
        ft pc.localItem pc.version src _ hmem with ⟨p, hp⟩ | ⟨v, p, hvp⟩
      · simp at hp
      · simp at hvp
  | true =>
    rw [hcop] at hdata
    simp only [eq_self_iff_true, if_true] at hdata
    have hpend := reconstructContents_new_version_pending env
      (splitCommaSpace pc.changeType) ft pc.localItem (toString wv) src hadd hdel
    cases hren : (splitCommaSpace pc.changeType).contains "rename" with
    | false =>
      simp only [Option.getD_some, hftne, hfile, hcop, hren, hadd, hexcl2,
        sourceItemAttr, hsrc, copiedAdjust, Bool.not_true, Bool.false_and,
        Bool.false_or, Bool.false_eq_true, if_false, eq_self_iff_true, if_true,
        hftnb, hsrcne, Bool.not_false, Bool.true_and, hW hcop,
        beq_iff_eq.mpr hdata, hpend]
      refine ⟨_, rfl, fun a b hmem => ?_, fun hmem => ?_⟩ <;>
        rcases List.mem_append.mp hmem with hmem | hmem
      · simp at hmem
      · rcases reconstructContents_events_sub env (splitCommaSpace pc.changeType)
          ft pc.localItem (toString wv) src _ hmem with ⟨p, hp⟩ | ⟨v, p, hvp⟩
        · simp at hp
        · simp at hvp
      · simp at hmem
      · rcases reconstructContents_events_sub env (splitCommaSpace pc.changeType)
          ft pc.localItem (toString wv) src _ hmem with ⟨p, hp⟩ | ⟨v, p, hvp⟩
        · simp at hp
        · simp at hvp
    | true =>
      simp only [Option.getD_some, hftne, hfile, hcop, hren, hadd, hexcl2,
        sourceItemAttr, hsrc, copiedAdjust, Bool.not_true, Bool.false_and,
        Bool.false_or, Bool.false_eq_true, if_false, eq_self_iff_true, if_true,
        hftnb, hsrcne, Bool.not_false, Bool.true_and, hW hcop,
        beq_iff_eq.mpr hdata, hpend]
      refine ⟨_, rfl, fun a b hmem => ?_, fun hmem => ?_⟩ <;>
        rcases List.mem_append.mp hmem with hmem | hmem
      · simp at hmem
      · rcases reconstructContents_events_sub env (splitCommaSpace pc.changeType)
          ft pc.localItem (toString wv) src _ hmem with ⟨p, hp⟩ | ⟨v, p, hvp⟩
        · simp at hp
        · simp at hvp
      · simp at hmem
      · rcases reconstructContents_events_sub env (splitCommaSpace pc.changeType)
          ft pc.localItem (toString wv) src _ hmem with ⟨p, hp⟩ | ⟨v, p, hvp⟩
        · simp at hp
        · simp at hvp

/-- Pure rename record and environment: witness input for C6. -/
def samplePCRename : PendingChange :=
  ⟨"rename", "$/p/b.txt", "/ws/b.txt", "5", some "text", some "$/p/a.txt"⟩

def sampleEnvRename : TFSEnv :=
  ⟨⟨[samplePCRename], 0⟩, fun _ => true, fun _ => "", fun _ _ => "",
   fun _ => .parsed [], fun _ _ => false, fun _ _ _ _ => .ok "D"⟩

/-- Witness for C6 at a concrete pure rename with identical content. -/
theorem rename_identical_headers_only_witness :
    ∃ evs,
      processPendingChange sampleEnvRename [] samplePCRename =
        (.ok ((if (splitCommaSpace samplePCRename.changeType).contains "branch"
                then ["Copied from: " ++ "$/p/a.txt" ++ "\n"] else []) ++
              ["--- " ++ ("$/p/a.txt" ++ "\t" ++
                  (if (splitCommaSpace samplePCRename.changeType).contains "branch"
                   then toString (0 : Int) else samplePCRename.version)) ++ "\n",
               "+++ " ++ (samplePCRename.serverItem ++ "\t" ++ "(pending)") ++ "\n"]),
         evs) ∧
      (∀ a b, Event.extDiff a b ∉ evs) ∧ Event.tmpCreate ∉ evs :=
  rename_identical_headers_only sampleEnvRename [] samplePCRename "text"
    "$/p/a.txt" 0 rfl (by decide) (by decide) rfl (Or.inl (by decide))
    (by decide) (by decide) rfl (Or.inl rfl)
    (fun h => absurd h (by decide)) (by decide) rfl
